import Mathlib

/-!
Verification development for the cross-community role reconciliation engine
(`rolesync/rolesync.py`, class `RoleSync`).

The embedding models the engine's pure decision logic.  Communities
("guilds"), members and roles are records; the external Community Directory
(discord) is modelled by explicit lookup over those records, with the role
comparison primitive abstracted to hierarchy `position` comparison as §6 of
the design specifies (`rolePosition(role) -> Integer`, higher = more senior).
Mutation calls (`add_roles` / `remove_roles`) are reified as a `Mutation`
list so the theorems can speak about exactly which calls each code path
issues; applying a mutation list to the world state models the directory
carrying the calls out.
-/

namespace RoleSyncSpec

/-- A role in one community: its snowflake id and its hierarchy position. -/
structure Role where
  id : Nat
  position : Nat
deriving DecidableEq

/-- A member record within one community: user id, bot flag, and the ids of
the roles held there (`discord.Role.__eq__` compares ids, so role-membership
tests in the source are id-based). -/
structure Member where
  id : Nat
  bot : Bool
  roles : List Nat
deriving DecidableEq

/-- One sync rule body as stored in config: `{to_add, other_server, to_check}`. -/
structure SyncPair where
  to_add : Nat
  other_server : Nat
  to_check : Nat
deriving DecidableEq

/-- A community the service participates in, together with this cog's
per-guild configuration (`roles` map and `dmroles` map) and the ambient
facts the handlers read: whether the cog is disabled here, whether the
service account has the manage-roles capability, and the service account's
top role (`guild.me.top_role`). -/
structure Guild where
  id : Nat
  disabled : Bool
  manageRoles : Bool
  meTop : Role
  roles : List Role
  members : List Member
  rules : List (String × SyncPair)
  dmroles : List (Nat × String)
deriving DecidableEq

/-- The world as the engine sees it: the list of guilds the bot is in. -/
structure BotState where
  guilds : List Guild
deriving DecidableEq

/-- A reified mutation call to the Community Directory. -/
inductive Mutation where
  | grant (guildId memberId roleId : Nat)
  | revoke (guildId memberId roleId : Nat)
deriving DecidableEq

def Mutation.guildId : Mutation → Nat
  | .grant g _ _ => g
  | .revoke g _ _ => g

def Mutation.memberId : Mutation → Nat
  | .grant _ u _ => u
  | .revoke _ u _ => u

def Mutation.roleId : Mutation → Nat
  | .grant _ _ r => r
  | .revoke _ _ r => r

def Mutation.isRevoke : Mutation → Bool
  | .grant _ _ _ => false
  | .revoke _ _ _ => true

/-- `bot.get_guild(id)`. -/
def getGuild (bot : BotState) (gid : Nat) : Option Guild :=
  bot.guilds.find? (fun g => g.id == gid)

/-- `guild.get_role(id)`. -/
def getRole (g : Guild) (rid : Nat) : Option Role :=
  g.roles.find? (fun r => r.id == rid)

/-- `guild.get_member(uid)`. -/
def getMember (g : Guild) (uid : Nat) : Option Member :=
  g.members.find? (fun m => m.id == uid)

/-- Python dict membership/lookup on the `roles` config map. -/
def lookupRule : List (String × SyncPair) → String → Option SyncPair
  | [], _ => none
  | e :: rest, n => if e.1 = n then some e.2 else lookupRule rest n

/-- Python dict membership/lookup on the `dmroles` config map. -/
def lookupDm : List (Nat × String) → Nat → Option String
  | [], _ => none
  | e :: rest, rid => if e.1 = rid then some e.2 else lookupDm rest rid

/-- `has_src = src_member and src_role in src_member.roles` from
`_sync_role`: the member with this user id exists in the source guild and
holds the source role there. -/
def hasSrcRole (srcGuild : Guild) (srcRoleId uid : Nat) : Prop :=
  ∃ sm, getMember srcGuild uid = some sm ∧ srcRoleId ∈ sm.roles

instance (g : Guild) (r u : Nat) : Decidable (hasSrcRole g r u) :=
  match h : getMember g u with
  | some sm =>
      decidable_of_iff (r ∈ sm.roles)
        (Iff.intro (fun hm => ⟨sm, h, hm⟩)
          (fun hx => by
            obtain ⟨sm2, h2, hm⟩ := hx
            rw [h] at h2
            cases h2
            exact hm))
  | none =>
      isFalse (by
        rintro ⟨sm, h2, -⟩
        rw [h] at h2
        cases h2)

/-- The per-member body of `_sync_role`'s member loop: grant when the member
holds the source role but not the target role; revoke when the member lacks
the source role, holds the target role and `remove_role` was passed. -/
def syncMemberMutation (tgtGuildId : Nat) (srcGuild : Guild) (srcRole tgtRole : Role)
    (removeRole : Bool) (m : Member) : List Mutation :=
  if hasSrcRole srcGuild srcRole.id m.id ∧ tgtRole.id ∉ m.roles then
    [.grant tgtGuildId m.id tgtRole.id]
  else if ¬ hasSrcRole srcGuild srcRole.id m.id ∧ tgtRole.id ∈ m.roles ∧ removeRole = true then
    [.revoke tgtGuildId m.id tgtRole.id]
  else []

/-- `_sync_role(ctx, settings, name, remove_role)` with `settings[name]`
already looked up as `pair` and the target guild (`ctx.guild`) passed by id:
resolve the source guild, the source role and the target role, bail out
(issuing nothing) when any is missing or the target role is not strictly
below the service account's top role, then run the member loop over every
member of the target guild. -/
def syncRole (bot : BotState) (tgtGuildId : Nat) (pair : SyncPair) (removeRole : Bool) :
    List Mutation :=
  match getGuild bot tgtGuildId with
  | none => []
  | some tgt =>
    match getGuild bot pair.other_server with
    | none => []
    | some src =>
      match getRole src pair.to_check with
      | none => []
      | some srcRole =>
        match getRole tgt pair.to_add with
        | none => []
        | some tgtRole =>
          if tgt.meTop.position ≤ tgtRole.position then []
          else tgt.members.flatMap (syncMemberMutation tgt.id src srcRole tgtRole removeRole)

/-- One iteration of `_scheduled_sync_loop`: every guild (where the cog is
not disabled), every rule, swept with `remove_role=True`. -/
def scheduledSyncIteration (bot : BotState) : List Mutation :=
  bot.guilds.flatMap (fun g =>
    if g.disabled then []
    else g.rules.flatMap (fun nr => syncRole bot g.id nr.2 true))

/-- `forcesyncall` / `force_sync_all_roles` over one guild with an explicit
revoke-drift flag. -/
def forceSyncAll (bot : BotState) (guild : Guild) (removeRole : Bool) : List Mutation :=
  guild.rules.flatMap (fun nr => syncRole bot guild.id nr.2 removeRole)

/-- `_apply_synced_roles(guild, member)`: for every configured pair, if the
member holds the check role in the (resolvable) other server, and the target
role resolves and is strictly below the service account's top role, grant it
when not already held. -/
def applySyncedRoles (bot : BotState) (guild : Guild) (member : Member) : List Mutation :=
  guild.rules.flatMap (fun nr =>
    match getGuild bot nr.2.other_server with
    | none => []
    | some os =>
      match getRole os nr.2.to_check, getMember os member.id with
      | some tc, some om =>
        if tc.id ∈ om.roles then
          match getRole guild nr.2.to_add with
          | none => []
          | some ta =>
            if guild.meTop.position ≤ ta.position then []
            else if ta.id ∈ member.roles then []
            else [.grant guild.id member.id ta.id]
        else []
      | _, _ => [])

/-- `_member_join`: bail out for bot accounts, disabled guilds or a missing
manage-roles capability, otherwise apply the synced roles immediately. -/
def memberJoin (bot : BotState) (guild : Guild) (member : Member) : List Mutation :=
  if member.bot = true ∨ guild.disabled = true ∨ guild.manageRoles = false then []
  else applySyncedRoles bot guild member

/-- The body of `_member_update`'s per-pair check for one target guild:
skip pairs whose `other_server` is not the guild the change happened in;
resolve the check role there and the target role in the target guild; skip
when either is missing or the target role is not strictly below the service
account's top role; skip when the member is not in the target guild; then
revoke on a lost check role (if the target role is currently held) and grant
on a gained check role (if not currently held). -/
def pairUpdateMutations (beforeGuild : Guild) (before after : Member)
    (guild : Guild) (pair : SyncPair) : List Mutation :=
  if pair.other_server ≠ beforeGuild.id then []
  else
    match getRole beforeGuild pair.to_check, getRole guild pair.to_add with
    | some tc, some ta =>
      if guild.meTop.position ≤ ta.position then []
      else
        match getMember guild before.id with
        | none => []
        | some tm =>
          if tc.id ∈ before.roles ∧ tc.id ∉ after.roles then
            if ta.id ∈ tm.roles then [.revoke guild.id tm.id ta.id] else []
          else if tc.id ∉ before.roles ∧ tc.id ∈ after.roles then
            if ta.id ∉ tm.roles then [.grant guild.id tm.id ta.id] else []
          else []
    | _, _ => []

/-- Part 1 of `_member_update` (source-guild monitoring): for every guild the
bot is in where the cog is not disabled, every configured pair is checked
against the role change. -/
def memberUpdateMutations (bot : BotState) (beforeGuild : Guild)
    (before after : Member) : List Mutation :=
  bot.guilds.flatMap (fun guild =>
    if guild.disabled then []
    else guild.rules.flatMap (fun nr => pairUpdateMutations beforeGuild before after guild nr.2))

/-- `added_roles = [r for r in after.roles if r not in before.roles]`. -/
def gainedRoleIds (before after : Member) : List Nat :=
  after.roles.filter (fun r => r ∉ before.roles)

/-- The DM attempts part 2 of `_member_update` makes for one guild:
`(guildId, roleId, message)` for each newly gained role with a configured
dmrole, skipped wholesale when the guild has no dmroles. -/
def dmAttemptsFor (g : Guild) (before after : Member) : List (Nat × Nat × String) :=
  if g.dmroles = [] then []
  else (gainedRoleIds before after).filterMap (fun rid =>
    match lookupDm g.dmroles rid with
    | some msg => some (g.id, rid, msg)
    | none => none)

/-- `before.mutual_guilds`: the guilds of the bot that the member is in. -/
def mutualGuilds (bot : BotState) (before : Member) : List Guild :=
  bot.guilds.filter (fun g => (getMember g before.id).isSome)

/-- All DM attempts of part 2 of `_member_update`, in order. -/
def dmAttempts (bot : BotState) (before after : Member) : List (Nat × Nat × String) :=
  (mutualGuilds bot before).flatMap (fun g => dmAttemptsFor g before after)

/-- Outcome of one `member.send` call. -/
inductive DmOutcome where
  | ok
  | forbidden
  | transport
deriving DecidableEq

/-- Running the DM attempts in order against a delivery oracle, exactly as
the source's loop behaves: a `Forbidden` failure is caught and skipped
(`except discord.Forbidden: pass`), while any other failure is uncaught, so
it aborts the remaining sends and escapes the handler (second component
`true`). -/
def runDms (deliver : Nat → String → DmOutcome) :
    List (Nat × Nat × String) → List (Nat × Nat × String) × Bool
  | [] => ([], false)
  | a :: rest =>
    match deliver a.2.1 a.2.2 with
    | .transport => ([], true)
    | .forbidden => runDms deliver rest
    | .ok =>
      let r := runDms deliver rest
      (a :: r.1, r.2)

/-- The observable result of one `_member_update` dispatch: the mutation
calls issued, the DMs successfully delivered, and whether an uncaught
delivery error escaped the handler. -/
structure UpdateResult where
  mutations : List Mutation
  sent : List (Nat × Nat × String)
  errored : Bool
deriving DecidableEq

/-- `_member_update(before, after)` end to end: bail out for bot accounts;
otherwise run the source-guild monitoring (part 1, all mutation calls) and
then the DM-on-role loop (part 2) against the delivery oracle. -/
def memberUpdate (bot : BotState) (beforeGuild : Guild) (before after : Member)
    (deliver : Nat → String → DmOutcome) : UpdateResult :=
  if before.bot = true then ⟨[], [], false⟩
  else
    let dm := runDms deliver (dmAttempts bot before after)
    ⟨memberUpdateMutations bot beforeGuild before after, dm.1, dm.2⟩

/-- Typed rendering of the distinct `ctx.send(...)` refusal messages of
`rs_add`. -/
inductive RsAddError where
  | notAdminInOther
  | aboveAuthorTop
  | aboveBotTop
  | checkRoleNotFound
  | duplicateName
deriving DecidableEq

/-- `rolesync add` (`rs_add`): refuse when the caller is not an
administrator in the other server; when the role to add is not strictly
below the caller's top role unless the caller owns the guild; when it is not
strictly below the service account's top role; when the check role does not
resolve in the other server; or when the name is already configured.
Otherwise append the new pair to the config map. -/
def rs_add (cfg : List (String × SyncPair)) (name : String)
    (roleToAdd : Role) (authorTop : Role) (authorIsOwner : Bool)
    (meTop : Role) (otherServerId : Nat) (roleToCheck : Option Role)
    (authorAdminInOther : Bool) : Except RsAddError (List (String × SyncPair)) :=
  if authorAdminInOther = false then .error .notAdminInOther
  else if authorTop.position ≤ roleToAdd.position ∧ authorIsOwner = false then
    .error .aboveAuthorTop
  else if meTop.position ≤ roleToAdd.position then .error .aboveBotTop
  else
    match roleToCheck with
    | none => .error .checkRoleNotFound
    | some rc =>
      if (lookupRule cfg name).isSome then .error .duplicateName
      else .ok (cfg ++ [(name, ⟨roleToAdd.id, otherServerId, rc.id⟩)])

/-- Typed rendering of `add_rolesync_pair`'s error dictionaries. -/
inductive ArError where
  | roleOrServerNotFound
  | sourceRoleNotFound
deriving DecidableEq

/-- Python dict assignment `cfg[name] = v`: replace in place when the key
exists, append otherwise. -/
def setRule (cfg : List (String × SyncPair)) (name : String) (v : SyncPair) :
    List (String × SyncPair) :=
  if (lookupRule cfg name).isSome then
    cfg.map (fun e => if e.1 = name then (name, v) else e)
  else cfg ++ [(name, v)]

/-- The Assistant-exposed `add_rolesync_pair` handler: resolve the target
role, the other guild and the check role, then store the pair under `name`
unconditionally (`cfg[name] = {...}` — no duplicate check, no hierarchy
check). -/
def add_rolesync_pair (bot : BotState) (guild : Guild) (name : String)
    (roleToAddId otherServerId roleToCheckId : Nat) :
    Except ArError (List (String × SyncPair)) :=
  match getRole guild roleToAddId, getGuild bot otherServerId with
  | some ra, some og =>
    match getRole og roleToCheckId with
    | none => .error .sourceRoleNotFound
    | some rc => .ok (setRule guild.rules name ⟨ra.id, og.id, rc.id⟩)
  | _, _ => .error .roleOrServerNotFound

/-- The directory carrying out one mutation call: the member with the call's
user id in the guild with the call's guild id gains (at the head of the
list) or loses the call's role id. -/
def applyToMember (μ : Mutation) (gid : Nat) (m : Member) : Member :=
  match μ with
  | .grant g u r => if g = gid ∧ u = m.id then { m with roles := r :: m.roles } else m
  | .revoke g u r =>
    if g = gid ∧ u = m.id then { m with roles := m.roles.filter (fun x => x ≠ r) } else m

def applyMutation (bot : BotState) (μ : Mutation) : BotState :=
  ⟨bot.guilds.map (fun g => { g with members := g.members.map (applyToMember μ g.id) })⟩

def applyMutations (bot : BotState) : List Mutation → BotState
  | [] => bot
  | μ :: rest => applyMutations (applyMutation bot μ) rest

/-- The cumulative effect of a mutation list on one member of the guild with
id `gid`. -/
def applyAllToMember (μs : List Mutation) (gid : Nat) (m : Member) : Member :=
  μs.foldl (fun acc μ => applyToMember μ gid acc) m

/-- A guild after a mutation list has been carried out. -/
def updGuild (μs : List Mutation) (g : Guild) : Guild :=
  { g with members := g.members.map (applyAllToMember μs g.id) }

/-- Executing a mutation list in order against a failure oracle: the calls
before the first failing one are carried out, the failing one raises, and —
because the member loop of `_sync_role` has no per-member exception handling
— everything after it is not attempted.  Returns the executed calls and the
first failure, if any. -/
def execMutations (fails : Mutation → Bool) : List Mutation → List Mutation × Option Mutation
  | [] => ([], none)
  | μ :: rest =>
    if fails μ then ([], some μ)
    else
      let r := execMutations fails rest
      (μ :: r.1, r.2)

/-- `_sync_role` under the failure oracle: the sweep's mutation sequence is
executed in order until the first failure. -/
def syncRoleExec (fails : Mutation → Bool) (bot : BotState) (tgtGuildId : Nat)
    (pair : SyncPair) (removeRole : Bool) : List Mutation × Option Mutation :=
  execMutations fails (syncRole bot tgtGuildId pair removeRole)

/-- The rule loop of one scheduled iteration for one guild: a failure raised
by `_sync_role` propagates, so the remaining rules of the guild are not
swept. -/
def execRules (fails : Mutation → Bool) (bot : BotState) (gid : Nat) :
    List (String × SyncPair) → List Mutation × Option Mutation
  | [] => ([], none)
  | nr :: rest =>
    let r := syncRoleExec fails bot gid nr.2 true
    match r.2 with
    | some e => (r.1, some e)
    | none =>
      let r2 := execRules fails bot gid rest
      (r.1 ++ r2.1, r2.2)

/-- The guild loop of one scheduled iteration: a failure propagates out of
the per-guild rule loop, so the remaining guilds are not swept either; the
`try`/`except` around the whole iteration catches it, which is why the
failure is recorded rather than re-raised. -/
def execGuilds (fails : Mutation → Bool) (bot : BotState) :
    List Guild → List Mutation × Option Mutation
  | [] => ([], none)
  | g :: rest =>
    if g.disabled then execGuilds fails bot rest
    else
      let r := execRules fails bot g.id g.rules
      match r.2 with
      | some e => (r.1, some e)
      | none =>
        let r2 := execGuilds fails bot rest
        (r.1 ++ r2.1, r2.2)

/-- One iteration of `_scheduled_sync_loop` under the failure oracle. -/
def scheduledIterationExec (fails : Mutation → Bool) (bot : BotState) :
    List Mutation × Option Mutation :=
  execGuilds fails bot bot.guilds

/-! ## A small concrete world, used to witness the hypothesis-bearing theorems -/

/-- Demo target community: the bot's top role is at position 50, the mirrored
role `20` at position 5; member `100` holds nothing, member `101` holds the
mirrored role out-of-band; one rule `"a"` mirrors role `10` of community `1`;
one dmrole on role `20`. -/
def demoTarget : Guild :=
  ⟨0, false, true, ⟨99, 50⟩, [⟨20, 5⟩], [⟨100, false, []⟩, ⟨101, false, [20]⟩],
    [("a", ⟨20, 1, 10⟩)], [(20, "welcome")]⟩

/-- Demo source community: member `100` holds the watched role `10`,
member `101` does not. -/
def demoSource : Guild :=
  ⟨1, false, true, ⟨98, 40⟩, [⟨10, 1⟩], [⟨100, false, [10]⟩, ⟨101, false, []⟩], [], []⟩

def demoBot : BotState := ⟨[demoTarget, demoSource]⟩

def demoPair : SyncPair := ⟨20, 1, 10⟩

/-! ## Helper lemmas: list plumbing and the algebra of mutation application -/

theorem filter_flatMap {α β : Type} (l : List α) (f : α → List β) (p : β → Bool) :
    (l.flatMap f).filter p = l.flatMap (fun x => (f x).filter p) := by
  induction l with
  | nil => simp
  | cons h t ih => simp [List.filter_append, ih]

theorem getGuild_mem {bot : BotState} {gid : Nat} {g : Guild}
    (h : getGuild bot gid = some g) : g ∈ bot.guilds ∧ g.id = gid := by
  unfold getGuild at h
  refine ⟨List.mem_of_find?_eq_some h, ?_⟩
  have := List.find?_some h
  simpa using this

theorem getMember_mem {g : Guild} {uid : Nat} {m : Member}
    (h : getMember g uid = some m) : m ∈ g.members ∧ m.id = uid := by
  unfold getMember at h
  refine ⟨List.mem_of_find?_eq_some h, ?_⟩
  have := List.find?_some h
  simpa using this

theorem find?_memberId_self {l : List Member} {m : Member} (hm : m ∈ l)
    (hn : (l.map Member.id).Nodup) : l.find? (fun x => x.id == m.id) = some m := by
  induction l with
  | nil => cases hm
  | cons h t ih =>
    simp only [List.map_cons, List.nodup_cons] at hn
    rcases List.mem_cons.mp hm with rfl | hmem
    · exact List.find?_cons_of_pos _ (by simp)
    · have hne : h.id ≠ m.id := by
        intro he
        exact hn.1 (he ▸ List.mem_map_of_mem Member.id hmem)
      rw [List.find?_cons_of_neg _ (by simpa using hne)]
      exact ih hmem hn.2

theorem getMember_self {g : Guild} {m : Member} (hm : m ∈ g.members)
    (hn : (g.members.map Member.id).Nodup) : getMember g m.id = some m :=
  find?_memberId_self hm hn

theorem applyToMember_id (μ : Mutation) (gid : Nat) (m : Member) :
    (applyToMember μ gid m).id = m.id := by
  cases μ <;> simp only [applyToMember] <;> split <;> rfl

theorem applyAllToMember_nil (gid : Nat) (m : Member) :
    applyAllToMember [] gid m = m := rfl

theorem applyAllToMember_cons (μ : Mutation) (μs : List Mutation) (gid : Nat) (m : Member) :
    applyAllToMember (μ :: μs) gid m = applyAllToMember μs gid (applyToMember μ gid m) := rfl

theorem applyAllToMember_id (μs : List Mutation) (gid : Nat) (m : Member) :
    (applyAllToMember μs gid m).id = m.id := by
  induction μs generalizing m with
  | nil => rfl
  | cons μ rest ih =>
    rw [applyAllToMember_cons, ih, applyToMember_id]

theorem applyToMember_irrel {μ : Mutation} {gid : Nat} {m : Member}
    (h : ¬ (μ.guildId = gid ∧ μ.memberId = m.id)) : applyToMember μ gid m = m := by
  cases μ with
  | grant g u r => simp only [Mutation.guildId, Mutation.memberId] at h; simp [applyToMember, h]
  | revoke g u r => simp only [Mutation.guildId, Mutation.memberId] at h; simp [applyToMember, h]

theorem applyAllToMember_irrel {μs : List Mutation} {gid : Nat} {m : Member}
    (h : ∀ μ ∈ μs, μ.guildId ≠ gid) : applyAllToMember μs gid m = m := by
  induction μs generalizing m with
  | nil => rfl
  | cons μ rest ih =>
    rw [applyAllToMember_cons, applyToMember_irrel (fun hc => h μ (List.mem_cons_self μ rest) hc.1)]
    exact ih (fun ν hν => h ν (List.mem_cons_of_mem μ hν))

theorem applyAllToMember_filter (μs : List Mutation) (gid : Nat) (m : Member) :
    applyAllToMember μs gid m
      = applyAllToMember (μs.filter (fun μ => μ.guildId == gid && μ.memberId == m.id)) gid m := by
  induction μs generalizing m with
  | nil => rfl
  | cons μ rest ih =>
    by_cases hc : μ.guildId = gid ∧ μ.memberId = m.id
    · have hfc : (μ :: rest).filter (fun ν => ν.guildId == gid && ν.memberId == m.id)
          = μ :: rest.filter (fun ν => ν.guildId == gid && ν.memberId == m.id) := by
        simp [List.filter_cons, hc.1, hc.2]
      rw [hfc, applyAllToMember_cons, applyAllToMember_cons, ih (applyToMember μ gid m),
        applyToMember_id]
    · have hb : (μ.guildId == gid && μ.memberId == m.id) = false := by
        rcases Decidable.not_and_iff_or_not.mp hc with h1 | h1 <;> simp [h1]
      have hfc : (μ :: rest).filter (fun ν => ν.guildId == gid && ν.memberId == m.id)
          = rest.filter (fun ν => ν.guildId == gid && ν.memberId == m.id) := by
        simp [List.filter_cons, hb]
      rw [hfc, applyAllToMember_cons, applyToMember_irrel hc]
      exact ih m

theorem updGuild_nil (g : Guild) : updGuild [] g = g := by
  cases g with
  | mk i d mr mt rs ms ru dm =>
    simp only [updGuild]
    congr 1
    rw [List.map_congr_left (fun m _ => applyAllToMember_nil i m)]
    exact List.map_id' ms

theorem updGuild_id (μs : List Mutation) (g : Guild) : (updGuild μs g).id = g.id := rfl

theorem updGuild_irrel {μs : List Mutation} {g : Guild}
    (h : ∀ μ ∈ μs, μ.guildId ≠ g.id) : updGuild μs g = g := by
  cases g with
  | mk i d mr mt rs ms ru dm =>
    simp only [updGuild]
    congr 1
    rw [List.map_congr_left (fun m _ => applyAllToMember_irrel h), List.map_id']

theorem applyMutations_guilds (μs : List Mutation) (bot : BotState) :
    (applyMutations bot μs).guilds = bot.guilds.map (updGuild μs) := by
  induction μs generalizing bot with
  | nil =>
    show bot.guilds = bot.guilds.map (updGuild [])
    rw [List.map_congr_left (fun g _ => updGuild_nil g)]
    exact (List.map_id' bot.guilds).symm
  | cons μ rest ih =>
    show (applyMutations (applyMutation bot μ) rest).guilds = _
    rw [ih]
    simp only [applyMutation, List.map_map]
    apply List.map_congr_left
    intro g _
    cases g with
    | mk i d mr mt rs ms ru dm =>
      simp only [Function.comp_apply, updGuild, List.map_map]
      rfl

theorem getGuild_applyMutations (bot : BotState) (μs : List Mutation) (i : Nat) :
    getGuild (applyMutations bot μs) i = (getGuild bot i).map (updGuild μs) := by
  unfold getGuild
  rw [applyMutations_guilds, List.find?_map]
  rfl

theorem getMember_updGuild (μs : List Mutation) (g : Guild) (uid : Nat) :
    getMember (updGuild μs g) uid = (getMember g uid).map (applyAllToMember μs g.id) := by
  show List.find? (fun m => m.id == uid) (g.members.map (applyAllToMember μs g.id)) = _
  rw [List.find?_map]
  have hp : ((fun (m : Member) => m.id == uid) ∘ applyAllToMember μs g.id)
      = (fun (m : Member) => m.id == uid) := by
    funext m
    simp [Function.comp, applyAllToMember_id]
  rw [hp]
  rfl

/-! ## Helper lemmas: the sweep -/

theorem syncMemberMutation_shape {G : Nat} {src : Guild} {sr tr : Role} {mode : Bool}
    {x : Member} {μ : Mutation} (h : μ ∈ syncMemberMutation G src sr tr mode x) :
    μ.guildId = G ∧ μ.memberId = x.id ∧ μ.roleId = tr.id := by
  unfold syncMemberMutation at h
  split at h
  · rcases List.mem_singleton.mp h with rfl
    exact ⟨rfl, rfl, rfl⟩
  · split at h
    · rcases List.mem_singleton.mp h with rfl
      exact ⟨rfl, rfl, rfl⟩
    · cases h

theorem syncRole_eq {bot : BotState} {gid : Nat} {pair : SyncPair} {tgt src : Guild}
    {sr tr : Role} (mode : Bool)
    (hg : getGuild bot gid = some tgt) (hs : getGuild bot pair.other_server = some src)
    (hsr : getRole src pair.to_check = some sr) (htr : getRole tgt pair.to_add = some tr)
    (hpos : ¬ tgt.meTop.position ≤ tr.position) :
    syncRole bot gid pair mode
      = tgt.members.flatMap (syncMemberMutation tgt.id src sr tr mode) := by
  simp [syncRole, hg, hs, hsr, htr, hpos]

theorem flatMap_filter_member {G : Nat} (f : Member → List Mutation) {l : List Member}
    {x : Member} (hx : x ∈ l) (hn : (l.map Member.id).Nodup)
    (hf : ∀ y ∈ l, ∀ μ ∈ f y, μ.guildId = G ∧ μ.memberId = y.id) :
    (l.flatMap f).filter (fun μ => μ.guildId == G && μ.memberId == x.id) = f x := by
  induction l with
  | nil => cases hx
  | cons h t ih =>
    simp only [List.map_cons, List.nodup_cons] at hn
    rw [List.flatMap_cons, List.filter_append]
    rcases List.mem_cons.mp hx with rfl | hmem
    · have h1 : (f x).filter (fun μ => μ.guildId == G && μ.memberId == x.id) = f x := by
        rw [List.filter_eq_self]
        intro μ hμ
        obtain ⟨hgd, hmb⟩ := hf x (List.mem_cons_self x t) μ hμ
        simp [hgd, hmb]
      have h2 : (t.flatMap f).filter (fun μ => μ.guildId == G && μ.memberId == x.id) = [] := by
        rw [filter_flatMap]
        apply List.flatMap_eq_nil_iff.mpr
        intro y hy
        apply List.filter_eq_nil_iff.mpr
        intro μ hμ
        obtain ⟨hgd, hmb⟩ := hf y (List.mem_cons_of_mem x hy) μ hμ
        have hne : y.id ≠ x.id := fun he => hn.1 (he ▸ List.mem_map_of_mem Member.id hy)
        simp [hmb, hne]
      rw [h1, h2, List.append_nil]
    · have hne : h.id ≠ x.id := fun he => hn.1 (he ▸ List.mem_map_of_mem Member.id hmem)
      have h1 : (f h).filter (fun μ => μ.guildId == G && μ.memberId == x.id) = [] := by
        apply List.filter_eq_nil_iff.mpr
        intro μ hμ
        obtain ⟨hgd, hmb⟩ := hf h (List.mem_cons_self h t) μ hμ
        simp [hmb, hne]
      rw [h1, List.nil_append]
      exact ih hmem hn.2 (fun y hy => hf y (List.mem_cons_of_mem h hy))

theorem roles_applyDec_mem_ne (G : Nat) (src : Guild) (sr tr : Role) (mode : Bool)
    (m : Member) {rid : Nat} (hne : rid ≠ tr.id) :
    (rid ∈ (applyAllToMember (syncMemberMutation G src sr tr mode m) G m).roles)
      ↔ rid ∈ m.roles := by
  unfold syncMemberMutation
  split
  · rw [applyAllToMember_cons, applyAllToMember_nil]
    simp [applyToMember, hne]
  · split
    · rw [applyAllToMember_cons, applyAllToMember_nil]
      simp [applyToMember, List.mem_filter, hne]
    · rw [applyAllToMember_nil]

theorem syncMember_applied_self (G : Nat) (src src2 : Guild) (sr tr : Role) (mode : Bool)
    (m : Member) (hsrc : hasSrcRole src2 sr.id m.id ↔ hasSrcRole src sr.id m.id) :
    syncMemberMutation G src2 sr tr mode
      (applyAllToMember (syncMemberMutation G src sr tr mode m) G m) = [] := by
  by_cases h1 : hasSrcRole src sr.id m.id <;> by_cases h2 : tr.id ∈ m.roles
  · rw [show syncMemberMutation G src sr tr mode m = [] from by
      simp [syncMemberMutation, h1, h2]]
    rw [applyAllToMember_nil]
    simp [syncMemberMutation, h2, hsrc.mpr h1]
  · rw [show syncMemberMutation G src sr tr mode m = [.grant G m.id tr.id] from by
      simp [syncMemberMutation, h1, h2]]
    have hm2 : applyAllToMember [.grant G m.id tr.id] G m = { m with roles := tr.id :: m.roles } := by
      rw [applyAllToMember_cons, applyAllToMember_nil]
      simp [applyToMember]
    rw [hm2]
    simp [syncMemberMutation, hsrc.mpr h1]
  · have hns2 : ¬ hasSrcRole src2 sr.id m.id := fun h => h1 (hsrc.mp h)
    cases hmode : mode
    · rw [show syncMemberMutation G src sr tr false m = [] from by
        simp [syncMemberMutation, h1]]
      rw [applyAllToMember_nil]
      simp [syncMemberMutation, hns2]
    · rw [show syncMemberMutation G src sr tr true m = [.revoke G m.id tr.id] from by
        simp [syncMemberMutation, h1, h2]]
      have hm2 : applyAllToMember [.revoke G m.id tr.id] G m
          = { m with roles := m.roles.filter (fun x => x ≠ tr.id) } := by
        rw [applyAllToMember_cons, applyAllToMember_nil]
        simp [applyToMember]
      rw [hm2]
      simp [syncMemberMutation, hns2, List.mem_filter]
  · have hns2 : ¬ hasSrcRole src2 sr.id m.id := fun h => h1 (hsrc.mp h)
    rw [show syncMemberMutation G src sr tr mode m = [] from by
      simp [syncMemberMutation, h1, h2]]
    rw [applyAllToMember_nil]
    simp [syncMemberMutation, hns2, h2]

/-! ## Claim C4: sweep idempotence -/

/-- **C4.** Running a full sweep of a rule twice in succession, with no change
to the source or target community's memberships between the runs other than
the mutations the first run itself issued, issues zero grant or revoke
mutation calls on the second run: after the directory has carried out the
first sweep's calls, every per-member guard of `_sync_role` finds the
current state already correct.  (Member ids within each guild are assumed
unique, as they are snowflakes in the directory.) -/
theorem C4_sweep_idempotence (bot : BotState) (gid : Nat) (pair : SyncPair) (mode : Bool)
    (hM : ∀ g ∈ bot.guilds, (g.members.map Member.id).Nodup) :
    syncRole (applyMutations bot (syncRole bot gid pair mode)) gid pair mode = [] := by
  cases hg : getGuild bot gid with
  | none =>
    rw [show syncRole bot gid pair mode = [] from by simp [syncRole, hg]]
    show syncRole bot gid pair mode = []
    simp [syncRole, hg]
  | some tgt =>
  cases hs : getGuild bot pair.other_server with
  | none =>
    rw [show syncRole bot gid pair mode = [] from by simp [syncRole, hg, hs]]
    show syncRole bot gid pair mode = []
    simp [syncRole, hg, hs]
  | some src =>
  cases hsr : getRole src pair.to_check with
  | none =>
    rw [show syncRole bot gid pair mode = [] from by simp [syncRole, hg, hs, hsr]]
    show syncRole bot gid pair mode = []
    simp [syncRole, hg, hs, hsr]
  | some sr =>
  cases htr : getRole tgt pair.to_add with
  | none =>
    rw [show syncRole bot gid pair mode = [] from by simp [syncRole, hg, hs, hsr, htr]]
    show syncRole bot gid pair mode = []
    simp [syncRole, hg, hs, hsr, htr]
  | some tr =>
  by_cases hpos : tgt.meTop.position ≤ tr.position
  · rw [show syncRole bot gid pair mode = [] from by simp [syncRole, hg, hs, hsr, htr, hpos]]
    show syncRole bot gid pair mode = []
    simp [syncRole, hg, hs, hsr, htr, hpos]
  · have htgtmem : tgt ∈ bot.guilds := (getGuild_mem hg).1
    have htgtid : tgt.id = gid := (getGuild_mem hg).2
    have hsrcmem : src ∈ bot.guilds := (getGuild_mem hs).1
    have hsrcid : src.id = pair.other_server := (getGuild_mem hs).2
    have hmain := syncRole_eq mode hg hs hsr htr hpos
    rw [hmain]
    set μs := tgt.members.flatMap (syncMemberMutation tgt.id src sr tr mode) with hμsdef
    have hshape : ∀ μ ∈ μs, μ.guildId = tgt.id := by
      intro μ hμ
      rw [hμsdef] at hμ
      obtain ⟨x, hx, hμx⟩ := List.mem_flatMap.mp hμ
      exact (syncMemberMutation_shape hμx).1
    by_cases hsame : src.id = tgt.id ∧ sr.id = tr.id
    · obtain ⟨hgid, hrid⟩ := hsame
      have hst : src = tgt := by
        have e : pair.other_server = gid := by rw [← hsrcid, hgid, htgtid]
        rw [e, hg] at hs
        exact (Option.some.inj hs).symm
      have hempty : ∀ x ∈ tgt.members, syncMemberMutation tgt.id src sr tr mode x = [] := by
        intro x hx
        have hgm : getMember src x.id = some x := by
          rw [hst]
          exact getMember_self hx (hM tgt htgtmem)
        have hiff : hasSrcRole src sr.id x.id ↔ tr.id ∈ x.roles := by
          unfold hasSrcRole
          rw [hgm]
          constructor
          · rintro ⟨sm, hsm, hmem⟩
            cases Option.some.inj hsm
            rwa [← hrid]
          · intro hmem
            exact ⟨x, rfl, by rwa [hrid]⟩
        by_cases hh : tr.id ∈ x.roles
        · simp [syncMemberMutation, hh, hiff.mpr hh]
        · have hnot : ¬ hasSrcRole src sr.id x.id := fun h => hh (hiff.mp h)
          simp [syncMemberMutation, hh, hnot]
      have hflat2 : tgt.members.flatMap (syncMemberMutation tgt.id src sr tr mode) = [] :=
        List.flatMap_eq_nil_iff.mpr hempty
      have hbot : applyMutations bot μs = bot := by
        show applyMutations bot
          (tgt.members.flatMap (syncMemberMutation tgt.id src sr tr mode)) = bot
        rw [hflat2]
        rfl
      rw [hbot, hmain]
      exact hflat2
    · have hg2 : getGuild (applyMutations bot μs) gid = some (updGuild μs tgt) := by
        rw [getGuild_applyMutations, hg]
        rfl
      have hs2 : getGuild (applyMutations bot μs) pair.other_server
          = some (updGuild μs src) := by
        rw [getGuild_applyMutations, hs]
        rfl
      have hsr2 : getRole (updGuild μs src) pair.to_check = some sr := hsr
      have htr2 : getRole (updGuild μs tgt) pair.to_add = some tr := htr
      have hpos2 : ¬ (updGuild μs tgt).meTop.position ≤ tr.position := hpos
      rw [syncRole_eq mode hg2 hs2 hsr2 htr2 hpos2]
      show (tgt.members.map (applyAllToMember μs tgt.id)).flatMap
        (syncMemberMutation tgt.id (updGuild μs src) sr tr mode) = []
      apply List.flatMap_eq_nil_iff.mpr
      intro y hy
      obtain ⟨x, hx, rfl⟩ := List.mem_map.mp hy
      have hf : ∀ y ∈ tgt.members, ∀ μ ∈ syncMemberMutation tgt.id src sr tr mode y,
          μ.guildId = tgt.id ∧ μ.memberId = y.id := by
        intro y hy μ hμ
        exact ⟨(syncMemberMutation_shape hμ).1, (syncMemberMutation_shape hμ).2.1⟩
      have hstep1 : applyAllToMember μs tgt.id x
          = applyAllToMember (syncMemberMutation tgt.id src sr tr mode x) tgt.id x := by
        rw [applyAllToMember_filter μs tgt.id x, hμsdef]
        rw [flatMap_filter_member (syncMemberMutation tgt.id src sr tr mode) hx
          (hM tgt htgtmem) hf]
      have hinv : hasSrcRole (updGuild μs src) sr.id x.id ↔ hasSrcRole src sr.id x.id := by
        by_cases hgid : src.id = tgt.id
        · have hne : sr.id ≠ tr.id := fun he => hsame ⟨hgid, he⟩
          have hst : src = tgt := by
            have e : pair.other_server = gid := by rw [← hsrcid, hgid, htgtid]
            rw [e, hg] at hs
            exact (Option.some.inj hs).symm
          have hgm : getMember src x.id = some x := by
            rw [hst]
            exact getMember_self hx (hM tgt htgtmem)
          have hL : getMember (updGuild μs src) x.id
              = some (applyAllToMember μs src.id x) := by
            rw [getMember_updGuild, hgm]
            rfl
          have hmemiff : sr.id ∈ (applyAllToMember μs src.id x).roles ↔ sr.id ∈ x.roles := by
            rw [hst, hstep1]
            exact roles_applyDec_mem_ne tgt.id src sr tr mode x hne
          unfold hasSrcRole
          rw [hL, hgm]
          constructor
          · rintro ⟨sm, hsm, hm⟩
            cases Option.some.inj hsm
            exact ⟨x, rfl, hmemiff.mp hm⟩
          · rintro ⟨sm, hsm, hm⟩
            cases Option.some.inj hsm
            exact ⟨_, rfl, hmemiff.mpr hm⟩
        · have hupd : updGuild μs src = src := by
            apply updGuild_irrel
            intro μ hμ
            rw [hshape μ hμ]
            exact fun h => hgid h.symm
          rw [hupd]
      rw [hstep1]
      exact syncMember_applied_self tgt.id src (updGuild μs src) sr tr mode x hinv

/-- Closed witness for C4 at the demo world, whose first sweep issues a
grant and a revoke. -/
theorem C4_sweep_idempotence_witness :
    (∀ g ∈ demoBot.guilds, (g.members.map Member.id).Nodup)
    ∧ syncRole (applyMutations demoBot (syncRole demoBot 0 demoPair true)) 0 demoPair true
        = [] :=
  ⟨by decide, C4_sweep_idempotence demoBot 0 demoPair true (by decide)⟩

/-! ## Helper lemmas: shapes of the mutation lists each path emits -/

theorem getRole_some_id {g : Guild} {rid : Nat} {r : Role}
    (h : getRole g rid = some r) : r.id = rid ∧ r ∈ g.roles := by
  unfold getRole at h
  refine ⟨?_, List.mem_of_find?_eq_some h⟩
  have := List.find?_some h
  simpa using this

theorem syncRole_false_no_revoke {bot : BotState} {gid : Nat} {pair : SyncPair}
    {μ : Mutation} (h : μ ∈ syncRole bot gid pair false) : μ.isRevoke = false := by
  unfold syncRole at h
  split at h
  · cases h
  split at h
  · cases h
  split at h
  · cases h
  split at h
  · cases h
  split at h
  · cases h
  · obtain ⟨x, hx, hμ⟩ := List.mem_flatMap.mp h
    unfold syncMemberMutation at hμ
    split at hμ
    · rcases List.mem_singleton.mp hμ with rfl
      rfl
    · split at hμ
      · rename_i hc
        exact absurd hc.2.2 (by simp)
      · cases hμ

theorem pairUpdateMutations_shape {beforeGuild : Guild} {before after : Member}
    {guild : Guild} {pair : SyncPair} {μ : Mutation}
    (h : μ ∈ pairUpdateMutations beforeGuild before after guild pair) :
    ∃ ta, getRole guild pair.to_add = some ta ∧ μ.guildId = guild.id ∧ μ.roleId = ta.id
      ∧ ¬ guild.meTop.position ≤ ta.position := by
  unfold pairUpdateMutations at h
  split at h
  · cases h
  split at h
  case _ tc ta heqtc heqta =>
    split at h
    · cases h
    case _ hpos =>
      split at h
      · cases h
      case _ tm heqtm =>
        split at h
        · split at h
          · rcases List.mem_singleton.mp h with rfl
            exact ⟨ta, heqta, rfl, rfl, hpos⟩
          · cases h
        split at h
        · split at h
          · rcases List.mem_singleton.mp h with rfl
            exact ⟨ta, heqta, rfl, rfl, hpos⟩
          · cases h
        · cases h
  · cases h

theorem applySyncedRoles_shape {bot : BotState} {guild : Guild} {member : Member}
    {μ : Mutation}
    (h : μ ∈ applySyncedRoles bot guild member) :
    ∃ ta, getRole guild μ.roleId = some ta ∧ μ.guildId = guild.id
      ∧ ¬ guild.meTop.position ≤ ta.position := by
  unfold applySyncedRoles at h
  obtain ⟨nr, hnr, hμ⟩ := List.mem_flatMap.mp h
  split at hμ
  · cases hμ
  split at hμ
  case _ tc om _ =>
    split at hμ
    · split at hμ
      · cases hμ
      case _ ta hta =>
        split at hμ
        · cases hμ
        case _ hpos =>
          split at hμ
          · cases hμ
          · rcases List.mem_singleton.mp hμ with rfl
            refine ⟨ta, ?_, rfl, hpos⟩
            show getRole guild ta.id = some ta
            rw [(getRole_some_id hta).1]
            exact hta
    · cases hμ
  · cases hμ

theorem syncMemberMutation_false_no_revoke {G : Nat} {src : Guild} {sr tr : Role}
    {x : Member} {μ : Mutation} (h : μ ∈ syncMemberMutation G src sr tr false x) :
    μ.isRevoke = false := by
  unfold syncMemberMutation at h
  split at h
  · rcases List.mem_singleton.mp h with rfl
    rfl
  · split at h
    · rename_i hc
      exact absurd hc.2.2 (by simp)
    · cases h

/-! ## Claim C3: sweep semantics and revoke-drift mode -/

/-- **C3.** During a full sweep of one rule, for every member of the target
community: a member who holds the source role and lacks the target role is
granted it; a member who lacks the source role but holds the target role is
revoked exactly when the sweep runs in revoke-drift mode; a grant-only sweep
(`remove_role=False`) never issues a revoke at all; and the scheduled hourly
iteration is exactly a force-sync-all of every enabled guild in revoke-drift
mode. -/
theorem C3_sweep_modes :
    (∀ (bot : BotState) (gid : Nat) (pair : SyncPair) (mode : Bool) (tgt src : Guild)
        (sr tr : Role) (m : Member),
        getGuild bot gid = some tgt → getGuild bot pair.other_server = some src →
        getRole src pair.to_check = some sr → getRole tgt pair.to_add = some tr →
        ¬ tgt.meTop.position ≤ tr.position → m ∈ tgt.members →
        hasSrcRole src sr.id m.id → tr.id ∉ m.roles →
        Mutation.grant tgt.id m.id tr.id ∈ syncRole bot gid pair mode)
    ∧ (∀ (bot : BotState) (gid : Nat) (pair : SyncPair) (mode : Bool) (tgt src : Guild)
        (sr tr : Role) (m : Member),
        getGuild bot gid = some tgt → getGuild bot pair.other_server = some src →
        getRole src pair.to_check = some sr → getRole tgt pair.to_add = some tr →
        ¬ tgt.meTop.position ≤ tr.position → m ∈ tgt.members →
        ¬ hasSrcRole src sr.id m.id → tr.id ∈ m.roles →
        (Mutation.revoke tgt.id m.id tr.id ∈ syncRole bot gid pair mode ↔ mode = true))
    ∧ (∀ (bot : BotState) (gid : Nat) (pair : SyncPair) (μ : Mutation),
        μ ∈ syncRole bot gid pair false → μ.isRevoke = false)
    ∧ (∀ bot : BotState, scheduledSyncIteration bot
        = bot.guilds.flatMap (fun g => if g.disabled then [] else forceSyncAll bot g true)) := by
  refine ⟨?_, ?_, ?_, ?_⟩
  · intro bot gid pair mode tgt src sr tr m hg hs hsr htr hpos hm h1 h2
    rw [syncRole_eq mode hg hs hsr htr hpos]
    refine List.mem_flatMap.mpr ⟨m, hm, ?_⟩
    simp [syncMemberMutation, h1, h2]
  · intro bot gid pair mode tgt src sr tr m hg hs hsr htr hpos hm h1 h2
    rw [syncRole_eq mode hg hs hsr htr hpos]
    constructor
    · intro hmem
      cases hmode : mode
      · subst hmode
        obtain ⟨x, hx, hμ⟩ := List.mem_flatMap.mp hmem
        have := syncMemberMutation_false_no_revoke hμ
        simp [Mutation.isRevoke] at this
      · rfl
    · intro hmode
      subst hmode
      refine List.mem_flatMap.mpr ⟨m, hm, ?_⟩
      simp [syncMemberMutation, h1, h2]
  · intro bot gid pair μ h
    exact syncRole_false_no_revoke h
  · intro bot
    rfl

/-- Closed witness for C3 at the demo world: the member who holds the
watched role is granted the mirrored role, and the out-of-band holder is
revoked because the sweep runs in revoke-drift mode. -/
theorem C3_sweep_modes_witness :
    hasSrcRole demoSource 10 100
    ∧ Mutation.grant 0 100 20 ∈ syncRole demoBot 0 demoPair true
    ∧ (Mutation.revoke 0 101 20 ∈ syncRole demoBot 0 demoPair true ↔ true = true) :=
  ⟨by decide,
   C3_sweep_modes.1 demoBot 0 demoPair true demoTarget demoSource ⟨10, 1⟩ ⟨20, 5⟩
     ⟨100, false, []⟩ (by decide) (by decide) (by decide) (by decide) (by decide) (by decide)
     (by decide) (by decide),
   C3_sweep_modes.2.1 demoBot 0 demoPair true demoTarget demoSource ⟨10, 1⟩ ⟨20, 5⟩
     ⟨101, false, [20]⟩ (by decide) (by decide) (by decide) (by decide) (by decide) (by decide)
     (by decide) (by decide)⟩

/-! ## Claim C1: hierarchy safety -/

/-- **C1.** Hierarchy safety: in each of the three mutation paths — the
role-change handler, the join-time application and the full sweep — every
mutation call that is issued targets a role that resolves in its guild and
whose position is strictly below the service account's top role position
there; equivalently, a rule whose target role sits at or above the service
account's top role never produces a mutation call, because each path checks
the hierarchy before calling the directory. -/
theorem C1_hierarchy_safety :
    (∀ (bot : BotState) (beforeGuild : Guild) (before after : Member) (μ : Mutation),
        μ ∈ memberUpdateMutations bot beforeGuild before after →
        ∃ g ∈ bot.guilds, μ.guildId = g.id
          ∧ ∃ r, getRole g μ.roleId = some r ∧ r.position < g.meTop.position)
    ∧ (∀ (bot : BotState) (guild : Guild) (member : Member) (μ : Mutation),
        μ ∈ applySyncedRoles bot guild member →
        ∃ r, getRole guild μ.roleId = some r ∧ r.position < guild.meTop.position)
    ∧ (∀ (bot : BotState) (gid : Nat) (pair : SyncPair) (mode : Bool) (μ : Mutation),
        μ ∈ syncRole bot gid pair mode →
        ∃ g, getGuild bot gid = some g
          ∧ ∃ r, getRole g μ.roleId = some r ∧ r.position < g.meTop.position) := by
  refine ⟨?_, ?_, ?_⟩
  · intro bot bg before after μ h
    unfold memberUpdateMutations at h
    obtain ⟨g, hgmem, hμ⟩ := List.mem_flatMap.mp h
    split at hμ
    · cases hμ
    · obtain ⟨nr, hnr, hμ2⟩ := List.mem_flatMap.mp hμ
      obtain ⟨ta, hta, hgid, hrid, hpos⟩ := pairUpdateMutations_shape hμ2
      refine ⟨g, hgmem, hgid, ta, ?_, Nat.lt_of_not_le hpos⟩
      rw [hrid, (getRole_some_id hta).1]
      exact hta
  · intro bot guild member μ h
    obtain ⟨ta, h1, h2, h3⟩ := applySyncedRoles_shape h
    exact ⟨ta, h1, Nat.lt_of_not_le h3⟩
  · intro bot gid pair mode μ h
    unfold syncRole at h
    split at h
    · cases h
    case _ tgt heq =>
      split at h
      · cases h
      case _ src heqs =>
        split at h
        · cases h
        case _ sr heqsr =>
          split at h
          · cases h
          case _ tr heqtr =>
            split at h
            · cases h
            case _ hpos =>
              obtain ⟨x, hx, hμ⟩ := List.mem_flatMap.mp h
              obtain ⟨h1, h2, h3⟩ := syncMemberMutation_shape hμ
              refine ⟨tgt, heq, tr, ?_, Nat.lt_of_not_le hpos⟩
              rw [h3, (getRole_some_id heqtr).1]
              exact heqtr

/-- Closed witness for C1 at the demo world: the sweep issues a grant, and
indeed its target role sits strictly below the service account's top role. -/
theorem C1_hierarchy_safety_witness :
    Mutation.grant 0 100 20 ∈ syncRole demoBot 0 demoPair true
    ∧ ∃ g, getGuild demoBot 0 = some g
        ∧ ∃ r, getRole g (Mutation.grant 0 100 20).roleId = some r
            ∧ r.position < g.meTop.position :=
  ⟨by decide,
   C1_hierarchy_safety.2.2 demoBot 0 demoPair true (Mutation.grant 0 100 20) (by decide)⟩

/-! ## Claim C2: role-change event handling -/

/-- **C2.** On a role-change event in a source community, for a rule of a
target guild whose `other_server` is that community, with the check and
target roles resolvable, the target role strictly below the service
account's top role, and the member present in the target guild: losing the
check role issues exactly one revoke when the target role is currently held
and nothing otherwise; gaining it issues exactly one grant when the target
role is not currently held and nothing otherwise; and a role change that
leaves every configured check role's membership unchanged produces no
mutation call at all. -/
theorem C2_role_change_event :
    (∀ (beforeGuild : Guild) (before after : Member) (guild : Guild) (pair : SyncPair)
        (tc ta : Role) (tm : Member),
        pair.other_server = beforeGuild.id →
        getRole beforeGuild pair.to_check = some tc →
        getRole guild pair.to_add = some ta →
        ¬ guild.meTop.position ≤ ta.position →
        getMember guild before.id = some tm →
        tc.id ∈ before.roles → tc.id ∉ after.roles →
        pairUpdateMutations beforeGuild before after guild pair
          = if ta.id ∈ tm.roles then [Mutation.revoke guild.id tm.id ta.id] else [])
    ∧ (∀ (beforeGuild : Guild) (before after : Member) (guild : Guild) (pair : SyncPair)
        (tc ta : Role) (tm : Member),
        pair.other_server = beforeGuild.id →
        getRole beforeGuild pair.to_check = some tc →
        getRole guild pair.to_add = some ta →
        ¬ guild.meTop.position ≤ ta.position →
        getMember guild before.id = some tm →
        tc.id ∉ before.roles → tc.id ∈ after.roles →
        pairUpdateMutations beforeGuild before after guild pair
          = if ta.id ∉ tm.roles then [Mutation.grant guild.id tm.id ta.id] else [])
    ∧ (∀ (bot : BotState) (beforeGuild : Guild) (before after : Member),
        (∀ g ∈ bot.guilds, ∀ nr ∈ g.rules, ∀ tc,
          getRole beforeGuild nr.2.to_check = some tc →
          (tc.id ∈ before.roles ↔ tc.id ∈ after.roles)) →
        memberUpdateMutations bot beforeGuild before after = []) := by
  refine ⟨?_, ?_, ?_⟩
  · intro bg before after guild pair tc ta tm hos htc hta hpos htm hb ha
    simp [pairUpdateMutations, hos, htc, hta, hpos, htm, hb, ha]
  · intro bg before after guild pair tc ta tm hos htc hta hpos htm hb ha
    simp [pairUpdateMutations, hos, htc, hta, hpos, htm, hb, ha]
  · intro bot bg before after hiff
    apply List.flatMap_eq_nil_iff.mpr
    intro g hg
    split
    · rfl
    · apply List.flatMap_eq_nil_iff.mpr
      intro nr hnr
      unfold pairUpdateMutations
      split
      · rfl
      split
      case _ tc ta heqtc heqta =>
        have hi := hiff g hg nr hnr tc heqtc
        split
        · rfl
        · split
          · rfl
          case _ tm heqtm =>
            by_cases h1 : tc.id ∈ before.roles
            · have h2 : tc.id ∈ after.roles := hi.mp h1
              simp [h1, h2]
            · have h2 : tc.id ∉ after.roles := fun hc => h1 (hi.mpr hc)
              simp [h1, h2]
      · rfl

/-- Closed witness for C2 at the demo world: member `101` loses the watched
role in the source community, and — since they hold the mirrored role in the
target community — exactly one revoke is issued. -/
theorem C2_role_change_event_witness :
    (10 ∈ ([10] : List Nat))
    ∧ pairUpdateMutations demoSource ⟨101, false, [10]⟩ ⟨101, false, []⟩ demoTarget demoPair
        = [Mutation.revoke 0 101 20] :=
  ⟨by decide,
   (C2_role_change_event.1 demoSource ⟨101, false, [10]⟩ ⟨101, false, []⟩ demoTarget demoPair
     ⟨10, 1⟩ ⟨20, 5⟩ ⟨101, false, [20]⟩ (by decide) (by decide) (by decide) (by decide)
     (by decide) (by decide) (by decide)).trans (by decide)⟩

/-! ## Claim C10: bot accounts are excluded -/

/-- **C10.** For every join event and every role-change event whose subject
member is a bot account, the handlers return before any rule lookup: no
mutation call is issued and no direct message is attempted, whatever the
configuration, membership data or delivery outcomes. -/
theorem C10_bot_accounts_excluded :
    (∀ (bot : BotState) (guild : Guild) (member : Member), member.bot = true →
        memberJoin bot guild member = [])
    ∧ (∀ (bot : BotState) (beforeGuild : Guild) (before after : Member)
        (deliver : Nat → String → DmOutcome), before.bot = true →
        memberUpdate bot beforeGuild before after deliver = ⟨[], [], false⟩) := by
  constructor
  · intro bot guild member hb
    simp [memberJoin, hb]
  · intro bot bg b a deliver hb
    simp [memberUpdate, hb]

/-- Closed witness for C10: a bot member joining, and a bot member's role
change, both produce no mutations and no DMs even with rules and dmroles
configured and a delivery oracle that would succeed. -/
theorem C10_bot_accounts_excluded_witness :
    ((⟨200, true, []⟩ : Member).bot = true)
    ∧ memberJoin demoBot demoTarget ⟨200, true, []⟩ = []
    ∧ memberUpdate demoBot demoSource ⟨200, true, []⟩ ⟨200, true, [10, 20]⟩
        (fun _ _ => DmOutcome.ok) = ⟨[], [], false⟩ :=
  ⟨rfl,
   C10_bot_accounts_excluded.1 demoBot demoTarget ⟨200, true, []⟩ rfl,
   C10_bot_accounts_excluded.2 demoBot demoSource ⟨200, true, []⟩ ⟨200, true, [10, 20]⟩
     (fun _ _ => DmOutcome.ok) rfl⟩

/-! ## Helper lemmas: the config map -/

theorem lookupRule_replace (cfg : List (String × SyncPair)) (n : String) (v : SyncPair)
    (h : (lookupRule cfg n).isSome) :
    lookupRule (cfg.map (fun e => if e.1 = n then (n, v) else e)) n = some v := by
  induction cfg with
  | nil => simp [lookupRule] at h
  | cons e rest ih =>
    by_cases he : e.1 = n
    · simp [lookupRule, he]
    · have h2 : (lookupRule rest n).isSome := by simpa [lookupRule, he] using h
      simp [lookupRule, he, ih h2]

theorem lookupRule_append_self (cfg : List (String × SyncPair)) (n : String) (v : SyncPair)
    (h : lookupRule cfg n = none) :
    lookupRule (cfg ++ [(n, v)]) n = some v := by
  induction cfg with
  | nil => simp [lookupRule]
  | cons e rest ih =>
    by_cases he : e.1 = n
    · simp [lookupRule, he] at h
    · simp only [lookupRule, he, if_false, List.cons_append]
      simp only [lookupRule, he] at h
      simpa [lookupRule, he] using ih h

theorem lookupRule_setRule (cfg : List (String × SyncPair)) (n : String) (v : SyncPair) :
    lookupRule (setRule cfg n v) n = some v := by
  unfold setRule
  split
  · exact lookupRule_replace cfg n v (by assumption)
  · rename_i h
    cases hl : lookupRule cfg n with
    | none => exact lookupRule_append_self cfg n v hl
    | some w => rw [hl] at h; simp at h

/-! ## Claim C5: duplicate rule names -/

/-- **C5 counterexample.** The Assistant entry point `add_rolesync_pair` is a
rule-creation entry point, yet adding under an already-existing name
succeeds and replaces the stored body (`to_add` changes from 20 to 21) —
the claim says every entry point fails with `DuplicateName` and leaves the
existing rule unmodified. -/
theorem C5_duplicate_name_counterexample :
    add_rolesync_pair
        ⟨[⟨5, false, true, ⟨99, 50⟩, [⟨20, 5⟩, ⟨21, 4⟩], [], [("a", ⟨20, 1, 10⟩)], []⟩,
          demoSource]⟩
        ⟨5, false, true, ⟨99, 50⟩, [⟨20, 5⟩, ⟨21, 4⟩], [], [("a", ⟨20, 1, 10⟩)], []⟩
        "a" 21 1 10
      = Except.ok [("a", ⟨21, 1, 10⟩)] := by rfl

/-- **C5 amended.** The command entry point `rs_add` does fail with
`DuplicateName` when the name already exists (once the earlier permission,
hierarchy and resolution checks pass), leaving the store untouched; but the
Assistant entry point `add_rolesync_pair` performs no duplicate check — it
stores the pair under the name unconditionally, overwriting any existing
rule of that name. -/
theorem C5_duplicate_name_amended :
    (∀ (cfg : List (String × SyncPair)) (name : String) (roleToAdd aTop mTop : Role)
        (isOwner : Bool) (osid : Nat) (rc : Role) (old : SyncPair),
        (aTop.position ≤ roleToAdd.position → isOwner = true) →
        ¬ mTop.position ≤ roleToAdd.position →
        lookupRule cfg name = some old →
        rs_add cfg name roleToAdd aTop isOwner mTop osid (some rc) true
          = Except.error RsAddError.duplicateName)
    ∧ (∀ (bot : BotState) (guild : Guild) (name : String) (raid osid rcid : Nat)
        (ra : Role) (og : Guild) (rc : Role),
        getRole guild raid = some ra → getGuild bot osid = some og →
        getRole og rcid = some rc →
        add_rolesync_pair bot guild name raid osid rcid
            = Except.ok (setRule guild.rules name ⟨ra.id, og.id, rc.id⟩)
          ∧ lookupRule (setRule guild.rules name ⟨ra.id, og.id, rc.id⟩) name
            = some ⟨ra.id, og.id, rc.id⟩) := by
  constructor
  · intro cfg name ra aTop mTop io osid rc old h1 h2 h3
    unfold rs_add
    have hcond2 : ¬ (aTop.position ≤ ra.position ∧ io = false) := by
      rintro ⟨hle, hio⟩
      rw [h1 hle] at hio
      cases hio
    have hks : (lookupRule cfg name).isSome = true := by
      rw [h3]
      rfl
    rw [if_neg (by simp), if_neg hcond2, if_neg h2]
    simp [hks]
  · intro bot guild name raid osid rcid ra og rc hra hog hrc
    constructor
    · simp [add_rolesync_pair, hra, hog, hrc]
    · exact lookupRule_setRule guild.rules name ⟨ra.id, og.id, rc.id⟩

/-- Closed witness for C5's amended statement: a duplicate `rs_add` is
refused, while `add_rolesync_pair` stores under the existing name and the
stored body is the new one. -/
theorem C5_duplicate_name_amended_witness :
    lookupRule demoTarget.rules "a" = some ⟨20, 1, 10⟩
    ∧ rs_add demoTarget.rules "a" ⟨20, 5⟩ ⟨97, 45⟩ false ⟨99, 50⟩ 1 (some ⟨10, 1⟩) true
        = Except.error RsAddError.duplicateName
    ∧ lookupRule (setRule demoTarget.rules "a" ⟨20, 1, 10⟩) "a" = some ⟨20, 1, 10⟩ :=
  ⟨by decide,
   C5_duplicate_name_amended.1 demoTarget.rules "a" ⟨20, 5⟩ ⟨97, 45⟩ ⟨99, 50⟩ false 1 ⟨10, 1⟩
     ⟨20, 1, 10⟩ (by decide) (by decide) (by decide),
   (C5_duplicate_name_amended.2 demoBot demoTarget "a" 20 1 10 ⟨20, 5⟩ demoSource ⟨10, 1⟩
     (by decide) (by decide) (by decide)).2⟩

/-! ## Claim C6: hierarchy checks at rule creation -/

/-- **C6 counterexample.** The Assistant entry point `add_rolesync_pair`
stores a rule whose target role (position 70) sits above the service
account's top role (position 50) — the claim says every rule-creation entry
point fails with `HierarchyViolation` and stores nothing in that case. -/
theorem C6_creation_hierarchy_counterexample :
    add_rolesync_pair
        ⟨[⟨6, false, true, ⟨99, 50⟩, [⟨60, 70⟩], [], [], []⟩, demoSource]⟩
        ⟨6, false, true, ⟨99, 50⟩, [⟨60, 70⟩], [], [], []⟩
        "x" 60 1 10
      = Except.ok [("x", ⟨60, 1, 10⟩)] := by rfl

/-- **C6 amended.** The command entry point `rs_add` refuses (storing
nothing) when the target role is not strictly below the caller's top role —
unless the caller is the guild owner — and when it is not strictly below the
service account's top role; but the Assistant entry point
`add_rolesync_pair` performs no hierarchy check at all and stores the rule
whatever the positions involved. -/
theorem C6_creation_hierarchy_amended :
    (∀ (cfg : List (String × SyncPair)) (name : String) (roleToAdd aTop mTop : Role)
        (osid : Nat) (rc : Option Role),
        aTop.position ≤ roleToAdd.position →
        rs_add cfg name roleToAdd aTop false mTop osid rc true
          = Except.error RsAddError.aboveAuthorTop)
    ∧ (∀ (cfg : List (String × SyncPair)) (name : String) (roleToAdd aTop mTop : Role)
        (isOwner : Bool) (osid : Nat) (rc : Option Role),
        (aTop.position ≤ roleToAdd.position → isOwner = true) →
        mTop.position ≤ roleToAdd.position →
        rs_add cfg name roleToAdd aTop isOwner mTop osid rc true
          = Except.error RsAddError.aboveBotTop)
    ∧ (∀ (bot : BotState) (guild : Guild) (name : String) (raid osid rcid : Nat)
        (ra : Role) (og : Guild) (rc : Role),
        getRole guild raid = some ra → getGuild bot osid = some og →
        getRole og rcid = some rc →
        add_rolesync_pair bot guild name raid osid rcid
          = Except.ok (setRule guild.rules name ⟨ra.id, og.id, rc.id⟩)) := by
  refine ⟨?_, ?_, ?_⟩
  · intro cfg name ra aTop mTop osid rc hle
    unfold rs_add
    rw [if_neg (by simp), if_pos ⟨hle, rfl⟩]
  · intro cfg name ra aTop mTop io osid rc h1 h2
    unfold rs_add
    have hcond2 : ¬ (aTop.position ≤ ra.position ∧ io = false) := by
      rintro ⟨hle, hio⟩
      rw [h1 hle] at hio
      cases hio
    rw [if_neg (by simp), if_neg hcond2, if_pos h2]
  · intro bot guild name raid osid rcid ra og rc hra hog hrc
    simp [add_rolesync_pair, hra, hog, hrc]

/-- Closed witness for C6's amended statement: `rs_add` refuses a target at
the caller's top position and a target at the service account's top
position; `add_rolesync_pair` stores a rule whose target is above the
service account's ceiling. -/
theorem C6_creation_hierarchy_amended_witness :
    rs_add [] "x" ⟨60, 45⟩ ⟨97, 45⟩ false ⟨99, 50⟩ 1 (some ⟨10, 1⟩) true
        = Except.error RsAddError.aboveAuthorTop
    ∧ rs_add [] "x" ⟨60, 50⟩ ⟨97, 60⟩ false ⟨99, 50⟩ 1 (some ⟨10, 1⟩) true
        = Except.error RsAddError.aboveBotTop
    ∧ add_rolesync_pair ⟨[⟨6, false, true, ⟨99, 50⟩, [⟨60, 70⟩], [], [], []⟩, demoSource]⟩
        ⟨6, false, true, ⟨99, 50⟩, [⟨60, 70⟩], [], [], []⟩ "x" 60 1 10
        = Except.ok (setRule [] "x" ⟨60, 1, 10⟩) :=
  ⟨C6_creation_hierarchy_amended.1 [] "x" ⟨60, 45⟩ ⟨97, 45⟩ ⟨99, 50⟩ 1 (some ⟨10, 1⟩)
     (by decide),
   C6_creation_hierarchy_amended.2.1 [] "x" ⟨60, 50⟩ ⟨97, 60⟩ ⟨99, 50⟩ false 1 (some ⟨10, 1⟩)
     (by decide) (by decide),
   C6_creation_hierarchy_amended.2.2
     ⟨[⟨6, false, true, ⟨99, 50⟩, [⟨60, 70⟩], [], [], []⟩, demoSource]⟩
     ⟨6, false, true, ⟨99, 50⟩, [⟨60, 70⟩], [], [], []⟩ "x" 60 1 10 ⟨60, 70⟩ demoSource
     ⟨10, 1⟩ (by decide) (by decide) (by decide)⟩

/-! ## Claim C9: self-referential rules -/

/-- **C9.** The design document states the validator should reject a rule
with `sourceRoleId == targetRoleId`; no entry point performs such a check.
At the failing input — an add whose check role resolves to the very role
being granted — both `rs_add` (with the owning guild as the "other" server)
and `add_rolesync_pair` succeed and store the self-referential rule. -/
theorem C9_self_referential_stored :
    rs_add [] "self" ⟨20, 5⟩ ⟨97, 45⟩ false ⟨99, 50⟩ 0 (some ⟨20, 5⟩) true
        = Except.ok [("self", ⟨20, 0, 20⟩)]
    ∧ add_rolesync_pair demoBot demoTarget "self" 20 0 20
        = Except.ok [("a", ⟨20, 1, 10⟩), ("self", ⟨20, 0, 20⟩)] := by
  constructor
  · rfl
  · rfl

/-! ## Helper lemmas: sequential execution with a first failure -/

theorem execMutations_append (fails : Mutation → Bool) (a b : List Mutation) :
    execMutations fails (a ++ b)
      = if (execMutations fails a).2 = none
        then ((execMutations fails a).1 ++ (execMutations fails b).1,
              (execMutations fails b).2)
        else execMutations fails a := by
  induction a with
  | nil => simp [execMutations]
  | cons μ rest ih =>
    by_cases hf : fails μ
    · simp [execMutations, hf]
    · simp only [List.cons_append, execMutations, hf, if_false, ih]
      cases h2 : (execMutations fails rest).2 with
      | none => simp [h2, ih]
      | some e => simp [h2, ih]

theorem execRules_eq (fails : Mutation → Bool) (bot : BotState) (gid : Nat)
    (rules : List (String × SyncPair)) :
    execRules fails bot gid rules
      = execMutations fails (rules.flatMap (fun nr => syncRole bot gid nr.2 true)) := by
  induction rules with
  | nil => rfl
  | cons nr rest ih =>
    rw [List.flatMap_cons, execMutations_append]
    cases h2 : (execMutations fails (syncRole bot gid nr.2 true)).2 with
    | none => simp [execRules, syncRoleExec, h2, ih]
    | some e =>
      simp [execRules, syncRoleExec, h2, ih]
      rw [← h2]

theorem execGuilds_eq (fails : Mutation → Bool) (bot : BotState) (gs : List Guild) :
    execGuilds fails bot gs
      = execMutations fails (gs.flatMap (fun g =>
          if g.disabled then []
          else g.rules.flatMap (fun nr => syncRole bot g.id nr.2 true))) := by
  induction gs with
  | nil => rfl
  | cons g rest ih =>
    rw [List.flatMap_cons, execMutations_append]
    by_cases hd : g.disabled
    · simp [execGuilds, hd, ih, execMutations]
    · rw [if_neg hd]
      cases h2 : (execMutations fails (g.rules.flatMap
          (fun nr => syncRole bot g.id nr.2 true))).2 with
      | none => simp [execGuilds, hd, execRules_eq, h2, ih]
      | some e =>
        simp [execGuilds, hd, execRules_eq, h2, ih]
        rw [← h2]

/-! ## Claim C8: failure handling during a sweep -/

/-- **C8 counterexample.** The member loop of `_sync_role` has no per-member
exception handling: with a failure oracle that fails the mutation for member
100, the scheduled iteration executes nothing at all — the revoke due for
member 101 of the very same rule appears in the sweep's planned sequence but
is never executed, so a per-member failure does abort the sweep for the
remaining members. -/
theorem C8_per_member_failure_counterexample :
    scheduledIterationExec (fun μ => μ.memberId == 100) demoBot
        = ([], some (Mutation.grant 0 100 20))
    ∧ Mutation.revoke 0 101 20 ∈ scheduledSyncIteration demoBot
    ∧ Mutation.revoke 0 101 20
        ∉ (scheduledIterationExec (fun μ => μ.memberId == 100) demoBot).1 :=
  ⟨by decide, by decide, by decide⟩

/-- **C8 amended.** A failure while processing one member is not recovered
per member: it aborts the current sweep and the remaining rules and guilds
of that scheduled iteration.  Precisely, one scheduled iteration under a
failure oracle executes exactly the longest prefix of the full iteration's
mutation sequence that precedes the first failing call, records that
failure, and stops — the surrounding `try`/`except` merely keeps the hourly
loop itself alive for the next interval. -/
theorem C8_iteration_abort_semantics :
    ∀ (fails : Mutation → Bool) (bot : BotState),
      scheduledIterationExec fails bot
        = execMutations fails (scheduledSyncIteration bot) := by
  intro fails bot
  exact execGuilds_eq fails bot bot.guilds

/-! ## Helper lemmas: the DM loop -/

theorem count_dmAttempts (dm : List (Nat × String)) (gid : Nat) (l : List Nat) (rid : Nat)
    (msg : String) (hl : l.Nodup) (hrid : rid ∈ l) (hm : lookupDm dm rid = some msg) :
    (l.filterMap (fun r => match lookupDm dm r with
      | some m => some (gid, r, m)
      | none => none)).count (gid, rid, msg) = 1 := by
  induction l with
  | nil => cases hrid
  | cons h t ih =>
    rcases List.mem_cons.mp hrid with rfl | hmem
    · have hnotin : rid ∉ t := (List.nodup_cons.mp hl).1
      rw [List.filterMap_cons]
      simp only [hm]
      have hzero : ((t.filterMap (fun r => match lookupDm dm r with
          | some m => some (gid, r, m)
          | none => none)).count ((gid, rid, msg) : Nat × Nat × String)) = 0 := by
        apply List.count_eq_zero.mpr
        intro hmem2
        obtain ⟨r, hr, hfr⟩ := List.mem_filterMap.mp hmem2
        cases hlk : lookupDm dm r with
        | none =>
          rw [hlk] at hfr
          cases hfr
        | some m =>
          rw [hlk] at hfr
          cases hfr
          exact hnotin hr
      simp [List.count_cons, hzero]
    · have hne : h ≠ rid := fun he => (List.nodup_cons.mp hl).1 (he ▸ hmem)
      rw [List.filterMap_cons]
      cases hf : lookupDm dm h with
      | none => exact ih (List.nodup_cons.mp hl).2 hmem
      | some m =>
        have hne2 : ((gid, rid, msg) : Nat × Nat × String) ≠ (gid, h, m) := by
          simp [Ne.symm hne]
        simp [List.count_cons, hne2, ih (List.nodup_cons.mp hl).2 hmem]

theorem runDms_no_transport (deliver : Nat → String → DmOutcome)
    (h : ∀ r m, deliver r m ≠ DmOutcome.transport) :
    ∀ l, (runDms deliver l).2 = false := by
  intro l
  induction l with
  | nil => rfl
  | cons x rest ih =>
    unfold runDms
    cases hd : deliver x.2.1 x.2.2 with
    | transport => exact absurd hd (h _ _)
    | forbidden => exact ih
    | ok => simpa using ih

theorem runDms_all_ok (l : List (Nat × Nat × String)) :
    runDms (fun _ _ => DmOutcome.ok) l = (l, false) := by
  induction l with
  | nil => rfl
  | cons x rest ih => simp [runDms, ih]

/-! ## Claim C7: DM delivery failures -/

/-- **C7 counterexample.** Only `discord.Forbidden` is caught in the DM
loop: with a delivery oracle that raises a transport failure, the configured
DM rule produces an attempt, yet the handler ends with an escaped error
(`errored = true`) — the claim says any delivery failure, including
transport failures, is swallowed and never propagates as a caller-visible
error. -/
theorem C7_transport_counterexample :
    memberUpdate demoBot demoSource ⟨100, false, []⟩ ⟨100, false, [20]⟩
        (fun _ _ => DmOutcome.transport)
      = ⟨[], [], true⟩
    ∧ dmAttempts demoBot ⟨100, false, []⟩ ⟨100, false, [20]⟩ = [(0, 20, "welcome")] :=
  ⟨by decide, by decide⟩

/-- **C7 amended.** The DM phase of `_member_update` runs after all mutation
logic, so the mutation calls of the event are what part 1 computes whatever
the delivery outcomes; each DmRule whose role is among the newly gained
roles yields exactly one send attempt per mutual guild carrying it; a
`Forbidden` failure (member closed DMs) is caught, so if delivery never
raises a transport failure the handler completes without error (and with an
always-successful oracle every attempt is delivered) — but a transport
failure is not caught and escapes the handler, aborting the remaining
sends. -/
theorem C7_dm_failures_amended :
    (∀ (bot : BotState) (bg : Guild) (b a : Member) (deliver : Nat → String → DmOutcome),
        (memberUpdate bot bg b a deliver).mutations
          = if b.bot = true then [] else memberUpdateMutations bot bg b a)
    ∧ (∀ (bot : BotState) (bg : Guild) (b a : Member) (deliver : Nat → String → DmOutcome),
        (∀ r m, deliver r m ≠ DmOutcome.transport) →
        (memberUpdate bot bg b a deliver).errored = false)
    ∧ (∀ (g : Guild) (b a : Member) (rid : Nat) (msg : String),
        a.roles.Nodup → rid ∈ a.roles → rid ∉ b.roles →
        lookupDm g.dmroles rid = some msg →
        (dmAttemptsFor g b a).count (g.id, rid, msg) = 1)
    ∧ (∀ (bot : BotState) (bg : Guild) (b a : Member), b.bot = false →
        (memberUpdate bot bg b a (fun _ _ => DmOutcome.ok)).sent = dmAttempts bot b a) := by
  refine ⟨?_, ?_, ?_, ?_⟩
  · intro bot bg b a deliver
    by_cases hb : b.bot = true <;> simp [memberUpdate, hb]
  · intro bot bg b a deliver h
    by_cases hb : b.bot = true <;>
      simp [memberUpdate, hb, runDms_no_transport deliver h]
  · intro g b a rid msg hnd hin hnotb hlk
    have hne : g.dmroles ≠ [] := by
      intro hnil
      rw [hnil] at hlk
      simp [lookupDm] at hlk
    unfold dmAttemptsFor
    rw [if_neg hne]
    apply count_dmAttempts
    · exact hnd.filter _
    · exact List.mem_filter.mpr ⟨hin, by simpa using hnotb⟩
    · exact hlk
  · intro bot bg b a hb
    simp [memberUpdate, hb, runDms_all_ok]

/-- Closed witness for C7's amended statement: member `100` gains role `20`;
with every send refused as Forbidden the handler still completes without
error, and the DM rule for role `20` yields exactly one attempt in the
target community. -/
theorem C7_dm_failures_amended_witness :
    (memberUpdate demoBot demoSource ⟨100, false, []⟩ ⟨100, false, [20]⟩
        (fun _ _ => DmOutcome.forbidden)).errored = false
    ∧ (dmAttemptsFor demoTarget ⟨100, false, []⟩ ⟨100, false, [20]⟩).count (0, 20, "welcome")
        = 1 :=
  ⟨C7_dm_failures_amended.2.1 demoBot demoSource ⟨100, false, []⟩ ⟨100, false, [20]⟩
     (fun _ _ => DmOutcome.forbidden) (fun _ _ h => DmOutcome.noConfusion h),
   C7_dm_failures_amended.2.2.1 demoTarget ⟨100, false, []⟩ ⟨100, false, [20]⟩ 20 "welcome"
     (by decide) (by decide) (by decide) (by decide)⟩

end RoleSyncSpec
